import Mathlib

/-!
Shallow embedding of `src/simple-arkworks/src/main.rs` (repository
`proof_of_attendance`): two R1CS circuits (`SumCircuit`, `CompareCircuit`)
over the BN254 scalar field, a byte-to-field string encoding
(`PrimeString`), and the Groth16 driver functions `prove_verify_sum` and
`prove_verify_starts_with` called from `main`.

The constraint system is modelled as explicit state threaded through
synthesis: instance (public-input) and witness assignment vectors grow as
variables are allocated, and `enforce_equal` appends an equality between
two linear combinations. The Groth16 backend itself (setup / prove /
verify) is an external library, out of scope per the design document; it
is modelled from the spec as a sound and complete oracle (see
`groth16Verify`).
-/

namespace SimpleArkworks

/-- The order of the BN254 scalar field `ark_bn254::Fr` (a prime). -/
def fieldOrder : Nat :=
  21888242871839275222246405745257275088548364400416034343698204186575808495617

/-- Circuit values: elements of the BN254 scalar field `Fr`. -/
abbrev F : Type := ZMod fieldOrder

instance : NeZero fieldOrder := ⟨by decide⟩

/-- Error type of `ark_relations::r1cs::SynthesisError`; the full enum of
the arkworks library is reproduced so that "no other error outcome"
statements are meaningful. -/
inductive SynthesisError where
  | AssignmentMissing
  | DivisionByZero
  | Unsatisfiable
  | PolynomialDegreeTooLarge
  | UnexpectedIdentity
  | MalformedVerifyingKey
  | UnconstrainedVariable
  deriving DecidableEq, Repr

/-- A variable of the constraint system, tagged as public input
(instance) or witness, identified by its allocation index. -/
inductive Var where
  | instVar (i : Nat)
  | witVar (i : Nat)
  deriving DecidableEq, Repr

/-- A linear combination of variables with field coefficients. -/
abbrev LC : Type := List (F × Var)

/-- The state accumulated by `ConstraintSystemRef` during synthesis:
assignments of the allocated public-input and witness variables (in
allocation order) and the list of equality constraints between linear
combinations added by `enforce_equal`. -/
structure ConstraintSystem where
  instAssignment : List F
  witAssignment : List F
  constraints : List (LC × LC)
  deriving DecidableEq, Repr

/-- The fresh constraint system a Groth16 setup/prove call hands to
`generate_constraints` (the backend's constant-one variable is omitted:
neither circuit of this program ever references it). -/
def emptyConstraintSystem : ConstraintSystem := ⟨[], [], []⟩

/-- Value of a variable under the accumulated assignment. -/
def ConstraintSystem.varValue (cs : ConstraintSystem) : Var → F
  | .instVar i => cs.instAssignment.getD i 0
  | .witVar i => cs.witAssignment.getD i 0

/-- Evaluate a linear combination under the accumulated assignment. -/
def ConstraintSystem.evalLC (cs : ConstraintSystem) (lc : LC) : F :=
  (lc.map fun t => t.1 * cs.varValue t.2).sum

/-- The satisfiability invariant: every accumulated constraint holds
exactly, over the field, under the accumulated assignment. -/
def ConstraintSystem.satisfied (cs : ConstraintSystem) : Prop :=
  ∀ c ∈ cs.constraints, cs.evalLC c.1 = cs.evalLC c.2

instance (cs : ConstraintSystem) : Decidable cs.satisfied :=
  List.decidableBAll _ _

/-- Allocate a witness variable bound to the value `v`
(`FpVar::new_witness` with an always-`Ok` closure). -/
def newWitnessVal (cs : ConstraintSystem) (v : F) : Var × ConstraintSystem :=
  (.witVar cs.witAssignment.length,
   { cs with witAssignment := cs.witAssignment ++ [v] })

/-- Allocate a public-input variable bound to the value `v`
(`FpVar::new_input` with an always-`Ok` closure). -/
def newInputVal (cs : ConstraintSystem) (v : F) : Var × ConstraintSystem :=
  (.instVar cs.instAssignment.length,
   { cs with instAssignment := cs.instAssignment ++ [v] })

/-- Execute `FpVar::new_witness` whose closure is
`v.ok_or(SynthesisError::AssignmentMissing)`. -/
def newWitness (cs : ConstraintSystem) :
    Option F → Except SynthesisError Var × ConstraintSystem
  | none => (.error .AssignmentMissing, cs)
  | some v => (.ok (newWitnessVal cs v).1, (newWitnessVal cs v).2)

/-- Execute `FpVar::new_input` whose closure is
`v.ok_or(SynthesisError::AssignmentMissing)`. -/
def newInput (cs : ConstraintSystem) :
    Option F → Except SynthesisError Var × ConstraintSystem
  | none => (.error .AssignmentMissing, cs)
  | some v => (.ok (newInputVal cs v).1, (newInputVal cs v).2)

/-- Record the constraint `lhs = rhs` (`enforce_equal`). -/
def ConstraintSystem.enforceEqual (cs : ConstraintSystem) (lhs rhs : LC) :
    ConstraintSystem :=
  { cs with constraints := cs.constraints ++ [(lhs, rhs)] }

/-- The `SumCircuit` struct: optional witness values `a`, `b` and
optional public value `c`. -/
structure SumCircuit where
  a : Option F
  b : Option F
  c : Option F

/-- The body of `SumCircuit::generate_constraints`: allocate `a` and `b`
as witnesses and `c` as a public input (each failing with
`AssignmentMissing` when absent), then enforce `a + b = c`. The pair
returned is the Rust `Result` together with the mutated
`ConstraintSystemRef`. -/
def SumCircuit.generate_constraints (self : SumCircuit)
    (cs : ConstraintSystem) :
    Except SynthesisError Unit × ConstraintSystem :=
  match newWitness cs self.a with
  | (.error e, cs1) => (.error e, cs1)
  | (.ok aVar, cs1) =>
    match newWitness cs1 self.b with
    | (.error e, cs2) => (.error e, cs2)
    | (.ok bVar, cs2) =>
      match newInput cs2 self.c with
      | (.error e, cs3) => (.error e, cs3)
      | (.ok cVar, cs3) =>
        (.ok (), cs3.enforceEqual [(1, aVar), (1, bVar)] [(1, cVar)])

/-- The `CompareCircuit` struct: optional public sequence `shorter` and
optional witness sequence `larger`. -/
structure CompareCircuit where
  shorter : Option (List F)
  larger : Option (List F)

/-- Allocate one public-input variable per element of the list, in order
(the `shorter.iter().map(new_input).collect()` loop). -/
def allocInputs (cs : ConstraintSystem) :
    List F → List Var × ConstraintSystem
  | [] => ([], cs)
  | v :: rest =>
    let (var, cs1) := newInputVal cs v
    let (vars, cs2) := allocInputs cs1 rest
    (var :: vars, cs2)

/-- Allocate one witness variable per element of the list, in order
(the `larger.iter().take(..).map(new_witness).collect()` loop). -/
def allocWitnesses (cs : ConstraintSystem) :
    List F → List Var × ConstraintSystem
  | [] => ([], cs)
  | v :: rest =>
    let (var, cs1) := newWitnessVal cs v
    let (vars, cs2) := allocWitnesses cs1 rest
    (var :: vars, cs2)

/-- The final loop of `CompareCircuit::generate_constraints`: for each
zipped pair `(shorter_var, larger_var)` enforce
`larger_var = shorter_var`, in order. -/
def enforceEqualPairs (cs : ConstraintSystem) :
    List (Var × Var) → ConstraintSystem
  | [] => cs
  | (sVar, lVar) :: rest =>
    enforceEqualPairs (cs.enforceEqual [(1, lVar)] [(1, sVar)]) rest

/-- The body of `CompareCircuit::generate_constraints`: unwrap both
optional sequences (`AssignmentMissing` when absent), reject
`shorter.len() > larger.len()` with `Unsatisfiable` before any
allocation, allocate public inputs for `shorter`, witnesses for the
first `shorter.len()` elements of `larger`, and enforce element-wise
equality of the zipped variables. -/
def CompareCircuit.generate_constraints (self : CompareCircuit)
    (cs : ConstraintSystem) :
    Except SynthesisError Unit × ConstraintSystem :=
  match self.shorter with
  | none => (.error .AssignmentMissing, cs)
  | some shorter =>
    match self.larger with
    | none => (.error .AssignmentMissing, cs)
    | some larger =>
      if shorter.length > larger.length then
        (.error .Unsatisfiable, cs)
      else
        let (shorterVars, cs1) := allocInputs cs shorter
        let (largerVars, cs2) :=
          allocWitnesses cs1 (larger.take shorter.length)
        (.ok (), enforceEqualPairs cs2 (shorterVars.zip largerVars))

/-- The `PrimeString` conversion (`From<&str> for PrimeString`): map each
byte of the string to the field element obtained by casting its
unsigned-integer value (`(*c as u64).into()`). Bytes are modelled as
natural numbers below 256. -/
def PrimeString.ofBytes (bytes : List Nat) : List F :=
  bytes.map fun c : Nat => (c : F)

/-- UTF-8 bytes of a string (`str::as_bytes`), for the ASCII strings the
program uses: one byte per character, the character's code point. -/
def asciiBytes (s : String) : List Nat :=
  s.data.map Char.toNat

/-- Modelled from the spec: the Groth16 backend (`setup`, `prove`,
`verify`) is an external library absent from the source, treated as a
correct black box ("assumed to be a correct, already-implemented
library"; "a correctly constructed proof of a true relation must always
verify", and "the system must never allow a false relation to verify as
true"). Verification of the proof produced from a synthesized constraint
system therefore returns `true` exactly when the synthesized assignment
satisfies every accumulated constraint and the public-input vector
supplied by the caller matches, value for value and in order, the
instance assignment produced during synthesis. -/
def groth16Verify (cs : ConstraintSystem) (publicInput : List F) : Bool :=
  decide cs.satisfied && decide (publicInput = cs.instAssignment)

/-- The driver `prove_verify_sum`: build the circuit from three `u64`
values, synthesize (setup and prove both run the same synthesis on
clones of the same circuit), then verify against the public-input vector
`[c]`. `.error e` models a synthesis failure aborting the session
(`unwrap` / `expect` panics); `.ok b` models `verify` returning `b`,
which the driver then asserts to be `true`. -/
def prove_verify_sum (a b c : Nat) : Except SynthesisError Bool :=
  let circuit : SumCircuit := ⟨some (a : F), some (b : F), some (c : F)⟩
  match circuit.generate_constraints emptyConstraintSystem with
  | (.error e, _) => .error e
  | (.ok _, cs) => .ok (groth16Verify cs [(c : F)])

/-- The driver `prove_verify_starts_with` after its two `PrimeString`
conversions: build the comparison circuit, synthesize, then verify
against the full `shorter` field-element sequence. -/
def compareSession (shorterArray largerArray : List F) :
    Except SynthesisError Bool :=
  let circuit : CompareCircuit := ⟨some shorterArray, some largerArray⟩
  match circuit.generate_constraints emptyConstraintSystem with
  | (.error e, _) => .error e
  | (.ok _, cs) => .ok (groth16Verify cs shorterArray)

/-- The driver `prove_verify_starts_with`: encode both strings with
`PrimeString`, then run the comparison session. -/
def prove_verify_starts_with (small large : String) :
    Except SynthesisError Bool :=
  compareSession (PrimeString.ofBytes (asciiBytes small))
    (PrimeString.ofBytes (asciiBytes large))

/-! Helper lemmas about the allocation loops of the comparison circuit. -/

theorem allocInputs_eq (l : List F) (cs : ConstraintSystem) :
    allocInputs cs l =
      ((List.range' cs.instAssignment.length l.length).map Var.instVar,
       { cs with instAssignment := cs.instAssignment ++ l }) := by
  induction l generalizing cs with
  | nil => simp [allocInputs]
  | cons v rest ih =>
    simp [allocInputs, newInputVal, ih, List.range'_succ]

theorem allocWitnesses_eq (l : List F) (cs : ConstraintSystem) :
    allocWitnesses cs l =
      ((List.range' cs.witAssignment.length l.length).map Var.witVar,
       { cs with witAssignment := cs.witAssignment ++ l }) := by
  induction l generalizing cs with
  | nil => simp [allocWitnesses]
  | cons v rest ih =>
    simp [allocWitnesses, newWitnessVal, ih, List.range'_succ]

theorem enforceEqualPairs_eq (prs : List (Var × Var))
    (cs : ConstraintSystem) :
    enforceEqualPairs cs prs =
      { cs with constraints := cs.constraints ++
          prs.map fun pr => ([((1 : F), pr.2)], [((1 : F), pr.1)]) } := by
  induction prs generalizing cs with
  | nil => simp [enforceEqualPairs]
  | cons pr rest ih =>
    obtain ⟨sV, lV⟩ := pr
    simp [enforceEqualPairs, ConstraintSystem.enforceEqual, ih]

theorem compare_generate_ok (shorter larger : List F)
    (cs : ConstraintSystem) (h : shorter.length ≤ larger.length) :
    CompareCircuit.generate_constraints ⟨some shorter, some larger⟩ cs =
      (.ok (),
        { instAssignment := cs.instAssignment ++ shorter,
          witAssignment :=
            cs.witAssignment ++ larger.take shorter.length,
          constraints := cs.constraints ++
            (((List.range' cs.instAssignment.length
                shorter.length).map Var.instVar).zip
              ((List.range' cs.witAssignment.length
                shorter.length).map Var.witVar)).map
              fun pr => ([((1 : F), pr.2)], [((1 : F), pr.1)]) }) := by
  have hlt : ¬ shorter.length > larger.length := not_lt.mpr h
  simp [CompareCircuit.generate_constraints, hlt, allocInputs_eq,
    allocWitnesses_eq, enforceEqualPairs_eq, List.length_take,
    Nat.min_eq_left h]

theorem compare_generate_empty_cs (shorter larger : List F)
    (h : shorter.length ≤ larger.length) :
    CompareCircuit.generate_constraints ⟨some shorter, some larger⟩
        emptyConstraintSystem =
      (.ok (), ⟨shorter, larger.take shorter.length,
        (List.range shorter.length).map fun i =>
          ([((1 : F), Var.witVar i)], [((1 : F), Var.instVar i)])⟩) := by
  rw [compare_generate_ok _ _ _ h]
  simp [emptyConstraintSystem, ← List.range_eq_range', List.zip_map',
    List.map_map, Function.comp]

theorem compareCS_satisfied_iff (shorter larger : List F) :
    (ConstraintSystem.mk shorter (larger.take shorter.length)
      ((List.range shorter.length).map fun i =>
        ([((1 : F), Var.witVar i)], [((1 : F), Var.instVar i)]))).satisfied
      ↔ ∀ i, i < shorter.length → larger.getD i 0 = shorter.getD i 0 := by
  have hgetD : ∀ i, i < shorter.length →
      (larger.take shorter.length).getD i 0 = larger.getD i 0 := by
    intro i hi
    simp [List.getD_eq_getElem?_getD, List.getElem?_take, hi]
  simp only [ConstraintSystem.satisfied, List.forall_mem_map,
    List.mem_range, ConstraintSystem.evalLC, ConstraintSystem.varValue,
    List.map_cons, List.map_nil, List.sum_cons, List.sum_nil, one_mul,
    add_zero]
  constructor
  · intro hs i hi
    rw [← hgetD i hi]
    exact hs i hi
  · intro hp i hi
    rw [hgetD i hi]
    exact hp i hi

theorem byte_cast_inj (b1 b2 : Nat) (h1 : b1 < 256) (h2 : b2 < 256) :
    ((b1 : F) = (b2 : F)) ↔ b1 = b2 := by
  constructor
  · intro h
    have hv := congrArg ZMod.val h
    rwa [ZMod.val_cast_of_lt (lt_trans h1 (by decide)),
      ZMod.val_cast_of_lt (lt_trans h2 (by decide))] at hv
  · intro h
    rw [h]

theorem ofBytes_inj (bs1 : List Nat) :
    ∀ bs2 : List Nat, (∀ b ∈ bs1, b < 256) → (∀ b ∈ bs2, b < 256) →
      PrimeString.ofBytes bs1 = PrimeString.ofBytes bs2 → bs1 = bs2 := by
  induction bs1 with
  | nil =>
    intro bs2 _ _ heq
    cases bs2 with
    | nil => rfl
    | cons b t => simp [PrimeString.ofBytes] at heq
  | cons b1 t1 ih =>
    intro bs2 h1 h2 heq
    cases bs2 with
    | nil => simp [PrimeString.ofBytes] at heq
    | cons b2 t2 =>
      simp only [PrimeString.ofBytes, List.map_cons,
        List.cons.injEq] at heq
      have hb : b1 = b2 :=
        (byte_cast_inj b1 b2 (h1 b1 (by simp)) (h2 b2 (by simp))).mp heq.1
      have ht : t1 = t2 :=
        ih t2 (fun b hbm => h1 b (by simp [hbm]))
          (fun b hbm => h2 b (by simp [hbm])) heq.2
      rw [hb, ht]

/-! Theorems settling the claims. -/

/-- C1: with `a`, `b`, `c` all present, `SumCircuit::generate_constraints`
returns `Ok`, allocating `a` and `b` as witness variables and `c` as a
public-input variable and adding the single constraint `a + b = c`; the
produced assignment satisfies the accumulated constraint system exactly
when `a + b = c` over the field, so for `a + b ≠ c` synthesis still
succeeds but the constraint is unsatisfied. -/
theorem sum_circuit_correct (a b c : F) :
    SumCircuit.generate_constraints ⟨some a, some b, some c⟩
        emptyConstraintSystem =
      (.ok (), ⟨[c], [a, b],
        [([((1 : F), Var.witVar 0), ((1 : F), Var.witVar 1)],
          [((1 : F), Var.instVar 0)])]⟩) ∧
    ((SumCircuit.generate_constraints ⟨some a, some b, some c⟩
        emptyConstraintSystem).2.satisfied ↔ a + b = c) := by
  refine ⟨rfl, ?_⟩
  simp [SumCircuit.generate_constraints, newWitness, newInput,
    newWitnessVal, newInputVal, ConstraintSystem.enforceEqual,
    emptyConstraintSystem, ConstraintSystem.satisfied,
    ConstraintSystem.evalLC, ConstraintSystem.varValue,
    List.getD_cons_zero, List.getD_cons_succ]

/-- C2: whenever `shorter` is a true element-wise prefix of `larger`,
synthesis of the comparison circuit succeeds, the produced assignment
satisfies every accumulated constraint, and the end-to-end session
(backend modelled from the spec) succeeds with `verify` returning
`true`. -/
theorem compare_prefix_complete (shorter larger : List F)
    (hlen : shorter.length ≤ larger.length)
    (hpref : ∀ i, i < shorter.length →
      larger.getD i 0 = shorter.getD i 0) :
    (CompareCircuit.generate_constraints ⟨some shorter, some larger⟩
        emptyConstraintSystem).1 = .ok () ∧
    (CompareCircuit.generate_constraints ⟨some shorter, some larger⟩
        emptyConstraintSystem).2.satisfied ∧
    compareSession shorter larger = .ok true := by
  have hgen := compare_generate_empty_cs shorter larger hlen
  have hsat := (compareCS_satisfied_iff shorter larger).mpr hpref
  refine ⟨by rw [hgen], by rw [hgen]; exact hsat, ?_⟩
  simp [compareSession, hgen, groth16Verify, hsat]

/-- Witness for C2 at shorter = "bc"-like values `[98, 99]` and
larger = `[98, 99, 100]`. -/
theorem compare_prefix_complete_witness :
    (CompareCircuit.generate_constraints
        ⟨some [(98 : F), (99 : F)],
          some [(98 : F), (99 : F), (100 : F)]⟩
        emptyConstraintSystem).1 = .ok () ∧
    (CompareCircuit.generate_constraints
        ⟨some [(98 : F), (99 : F)],
          some [(98 : F), (99 : F), (100 : F)]⟩
        emptyConstraintSystem).2.satisfied ∧
    compareSession [(98 : F), (99 : F)]
      [(98 : F), (99 : F), (100 : F)] = .ok true :=
  compare_prefix_complete [(98 : F), (99 : F)]
    [(98 : F), (99 : F), (100 : F)] (by decide) (by decide)

/-- C3: with both sequences present and `shorter` strictly longer than
`larger`, synthesis fails with `Unsatisfiable` and leaves the constraint
system exactly as it was (the check precedes every allocation); with
`shorter` no longer than `larger`, that failure does not occur and
synthesis returns `Ok`. -/
theorem compare_length_precondition (shorter larger : List F)
    (cs : ConstraintSystem) :
    (shorter.length > larger.length →
      CompareCircuit.generate_constraints ⟨some shorter, some larger⟩
        cs = (.error .Unsatisfiable, cs)) ∧
    (shorter.length ≤ larger.length →
      (CompareCircuit.generate_constraints ⟨some shorter, some larger⟩
        cs).1 = .ok ()) := by
  constructor
  · intro hgt
    simp [CompareCircuit.generate_constraints, hgt]
  · intro hle
    rw [compare_generate_ok _ _ _ hle]

/-- Witness for C3: a two-element `shorter` against a one-element
`larger` fails with `Unsatisfiable` leaving the system untouched, and
the transposed lengths synthesize successfully. -/
theorem compare_length_precondition_witness :
    CompareCircuit.generate_constraints
        ⟨some [(1 : F), (2 : F)], some [(1 : F)]⟩ emptyConstraintSystem =
      (.error .Unsatisfiable, emptyConstraintSystem) ∧
    (CompareCircuit.generate_constraints
        ⟨some [(1 : F)], some [(1 : F), (2 : F)]⟩
        emptyConstraintSystem).1 = .ok () :=
  ⟨(compare_length_precondition [(1 : F), (2 : F)] [(1 : F)]
      emptyConstraintSystem).1 (by decide),
   (compare_length_precondition [(1 : F)] [(1 : F), (2 : F)]
      emptyConstraintSystem).2 (by decide)⟩

/-- C4: with both sequences present and `shorter.length ≤ larger.length`,
synthesis allocates exactly one public-input variable per element of
`shorter` in order, witness variables only for the first
`shorter.length` elements of `larger` (nothing past that index is
referenced), and exactly one equality constraint per index asserting the
witness element equals the corresponding public element. -/
theorem compare_circuit_shape (shorter larger : List F)
    (h : shorter.length ≤ larger.length) :
    CompareCircuit.generate_constraints ⟨some shorter, some larger⟩
        emptyConstraintSystem =
      (.ok (), ⟨shorter, larger.take shorter.length,
        (List.range shorter.length).map fun i =>
          ([((1 : F), Var.witVar i)], [((1 : F), Var.instVar i)])⟩) :=
  compare_generate_empty_cs shorter larger h

/-- Witness for C4 at shorter = `[5]`, larger = `[5, 7]`: only the first
element of `larger` becomes a witness variable. -/
theorem compare_circuit_shape_witness :
    CompareCircuit.generate_constraints
        ⟨some [(5 : F)], some [(5 : F), (7 : F)]⟩ emptyConstraintSystem =
      (.ok (), ⟨[(5 : F)], [(5 : F)],
        [([((1 : F), Var.witVar 0)], [((1 : F), Var.instVar 0)])]⟩) := by
  have h := compare_circuit_shape [(5 : F)] [(5 : F), (7 : F)] (by decide)
  simpa using h

/-- C5: synthesis fails with `AssignmentMissing` exactly when a required
input is absent — for the sum circuit when any of `a`, `b`, `c` is
`none`, for the comparison circuit when either sequence is `none` (this
check preceding the length precondition) — and the comparison circuit
has no outcomes other than `Ok`, `AssignmentMissing` and
`Unsatisfiable`. -/
theorem synthesis_error_taxonomy (sc : SumCircuit) (cc : CompareCircuit)
    (cs : ConstraintSystem) :
    ((sc.generate_constraints cs).1 = .error .AssignmentMissing ↔
      (sc.a = none ∨ sc.b = none ∨ sc.c = none)) ∧
    ((cc.generate_constraints cs).1 = .error .AssignmentMissing ↔
      (cc.shorter = none ∨ cc.larger = none)) ∧
    ((cc.generate_constraints cs).1 = .ok () ∨
      (cc.generate_constraints cs).1 = .error .AssignmentMissing ∨
      (cc.generate_constraints cs).1 = .error .Unsatisfiable) := by
  obtain ⟨a, b, c⟩ := sc
  obtain ⟨sh, lg⟩ := cc
  refine ⟨?_, ?_, ?_⟩
  · cases a <;> cases b <;> cases c <;>
      simp [SumCircuit.generate_constraints, newWitness, newInput,
        newWitnessVal, newInputVal]
  · cases sh with
    | none => simp [CompareCircuit.generate_constraints]
    | some s =>
      cases lg with
      | none => simp [CompareCircuit.generate_constraints]
      | some l =>
        by_cases hc : s.length > l.length
        · simp [CompareCircuit.generate_constraints, hc]
        · rw [compare_generate_ok s l cs (not_lt.mp hc)]
          simp
  · cases sh with
    | none => simp [CompareCircuit.generate_constraints]
    | some s =>
      cases lg with
      | none => simp [CompareCircuit.generate_constraints]
      | some l =>
        by_cases hc : s.length > l.length
        · simp [CompareCircuit.generate_constraints, hc]
        · rw [compare_generate_ok s l cs (not_lt.mp hc)]
          simp

/-- Witness for C5 at a sum circuit missing `a` and a comparison circuit
missing `shorter`. -/
theorem synthesis_error_taxonomy_witness :
    ((SumCircuit.generate_constraints ⟨none, some 1, some 2⟩
        emptyConstraintSystem).1 = .error .AssignmentMissing ↔
      ((none : Option F) = none ∨ (some (1 : F)) = none ∨
        (some (2 : F)) = none)) ∧
    ((CompareCircuit.generate_constraints ⟨none, some []⟩
        emptyConstraintSystem).1 = .error .AssignmentMissing ↔
      ((none : Option (List F)) = none ∨ (some ([] : List F)) = none)) ∧
    ((CompareCircuit.generate_constraints ⟨none, some []⟩
        emptyConstraintSystem).1 = .ok () ∨
      (CompareCircuit.generate_constraints ⟨none, some []⟩
        emptyConstraintSystem).1 = .error .AssignmentMissing ∨
      (CompareCircuit.generate_constraints ⟨none, some []⟩
        emptyConstraintSystem).1 = .error .Unsatisfiable) :=
  synthesis_error_taxonomy ⟨none, some 1, some 2⟩ ⟨none, some []⟩
    emptyConstraintSystem

/-- C6: the demonstration in `main` runs `prove_verify_sum(3, 4, 7)`,
which succeeds with `verify = true`, and then
`prove_verify_starts_with("bad", "bcdef")`, whose synthesized assignment
violates the index-1 constraint (byte `a` = 97 versus byte `c` = 99), so
the assignment does not satisfy the constraint system, `verify` returns
`false`, and the driver's assertion fails: the demonstration does not
complete without failure. -/
theorem main_demonstration_run :
    prove_verify_sum 3 4 7 = .ok true ∧
    prove_verify_starts_with "bad" "bcdef" = .ok false ∧
    ¬ (CompareCircuit.generate_constraints
        ⟨some (PrimeString.ofBytes (asciiBytes "bad")),
          some (PrimeString.ofBytes (asciiBytes "bcdef"))⟩
        emptyConstraintSystem).2.satisfied := by
  refine ⟨rfl, rfl, ?_⟩
  decide

/-- C7: the byte-to-field encoding is a total function mapping a byte
sequence to a field-element sequence of the same length, and on byte
sequences (values below 256) it is injective: equal inputs give
identical outputs and distinct inputs give distinct outputs. -/
theorem prime_string_encoding (bs1 bs2 : List Nat)
    (h1 : ∀ b ∈ bs1, b < 256) (h2 : ∀ b ∈ bs2, b < 256) :
    (PrimeString.ofBytes bs1).length = bs1.length ∧
    (PrimeString.ofBytes bs1 = PrimeString.ofBytes bs2 ↔ bs1 = bs2) := by
  refine ⟨List.length_map _ _, ?_⟩
  constructor
  · exact ofBytes_inj bs1 bs2 h1 h2
  · intro h
    rw [h]

/-- Witness for C7 at the distinct one-byte sequences `[98]` and
`[99]`. -/
theorem prime_string_encoding_witness :
    (PrimeString.ofBytes [98]).length = [98].length ∧
    (PrimeString.ofBytes [98] = PrimeString.ofBytes [99] ↔
      [98] = [99]) :=
  prime_string_encoding [98] [99] (by decide) (by decide)

/-- C8: the public-input vector the driver passes to `verify` — `[c]`
for the sum relation, the full `shorter` sequence for the comparison
relation — equals, value for value and in order, the instance assignment
the circuit produced during synthesis. -/
theorem public_input_matches_synthesis (a b c : Nat)
    (shorter larger : List F) (hlen : shorter.length ≤ larger.length) :
    (SumCircuit.generate_constraints
        ⟨some (a : F), some (b : F), some (c : F)⟩
        emptyConstraintSystem).2.instAssignment = [(c : F)] ∧
    (CompareCircuit.generate_constraints ⟨some shorter, some larger⟩
        emptyConstraintSystem).2.instAssignment = shorter := by
  refine ⟨rfl, ?_⟩
  rw [compare_generate_empty_cs shorter larger hlen]

/-- Witness for C8 at the sum inputs (3, 4, 7) and the comparison
sequences `[98]`, `[98, 99]`. -/
theorem public_input_matches_synthesis_witness :
    (SumCircuit.generate_constraints
        ⟨some ((3 : Nat) : F), some ((4 : Nat) : F), some ((7 : Nat) : F)⟩
        emptyConstraintSystem).2.instAssignment = [((7 : Nat) : F)] ∧
    (CompareCircuit.generate_constraints
        ⟨some [(98 : F)], some [(98 : F), (99 : F)]⟩
        emptyConstraintSystem).2.instAssignment = [(98 : F)] :=
  public_input_matches_synthesis 3 4 7 [(98 : F)] [(98 : F), (99 : F)]
    (by decide)

/-- C9: with `shorter` present and empty and `larger` present of any
length, synthesis returns `Ok` and leaves the constraint system exactly
as given: no variable is allocated and no constraint is added — the
empty prefix is vacuously accepted. -/
theorem compare_empty_shorter (larger : List F) (cs : ConstraintSystem) :
    CompareCircuit.generate_constraints ⟨some [], some larger⟩ cs =
      (.ok (), cs) := by
  simp [CompareCircuit.generate_constraints, allocInputs,
    allocWitnesses, enforceEqualPairs]

/-- C10: the encoding maps each byte to the field's standard embedding
of its unsigned-integer value (so "bc" encodes to the elements for 98
and 99), every byte value is below the field modulus, and castings of
two byte values coincide exactly when the bytes are equal. -/
theorem byte_encoding_values :
    PrimeString.ofBytes (asciiBytes "bc") = [(98 : F), (99 : F)] ∧
    (∀ b : Nat, b < 256 → b < fieldOrder) ∧
    (∀ b1 b2 : Nat, b1 < 256 → b2 < 256 →
      (((b1 : F) = (b2 : F)) ↔ b1 = b2)) := by
  refine ⟨by decide, ?_, byte_cast_inj⟩
  intro b hb
  exact lt_of_lt_of_le hb (by decide)

/-- Witness for C10 at byte values 98, 97 and 99. -/
theorem byte_encoding_values_witness :
    (98 : Nat) < fieldOrder ∧
    (((97 : Nat) : F) = ((99 : Nat) : F) ↔ (97 : Nat) = 99) :=
  ⟨byte_encoding_values.2.1 98 (by decide),
   byte_encoding_values.2.2 97 99 (by decide) (by decide)⟩

end SimpleArkworks
